import Mathlib

/-!
Shallow embedding of the fedora-tagger backend library
(`taggerapi/taggerlib/__init__.py`): the data model (Package, FASUser, Tag,
Vote, Rating rows held in a relational store) and the four operations
`add_tag`, `add_rating`, `add_vote`, `statistics`, together with proofs of
the specified properties (counter/vote invariant, branch behaviour of
voting, statistics aggregation, error signalling).

The relational session is embedded as an explicit `Store` value holding the
row lists and a fresh-id allocator; SQLAlchemy row mutation becomes an
id-keyed functional update, and raised exceptions become an `Except`-style
result paired with the session state left behind by the call.
-/

namespace FedoraTagger

/-- Modelled from the spec: a Package row — id, unique name, summary
(the `model` module itself is not part of the embedded source). -/
structure Package where
  id : Nat
  name : String
  summary : String
deriving DecidableEq

/-- Modelled from the spec: a User row, identified by originating network
address. -/
structure FASUser where
  id : Nat
  ipaddress : String
deriving DecidableEq

/-- Modelled from the spec: a Tag row — belongs to one package, has a label
and the two denormalized counters `like` and `dislike`. Counters are
embedded as `Int` (Python integers are unbounded and the decrements in
`add_vote` are unguarded). -/
structure Tag where
  id : Nat
  package_id : Nat
  label : String
  like : Int
  dislike : Int
deriving DecidableEq

/-- Modelled from the spec: a Vote row — one (user, tag) pair with a boolean
polarity. -/
structure Vote where
  id : Nat
  user_id : Nat
  tag_id : Nat
  like : Bool
deriving DecidableEq

/-- Modelled from the spec: a Rating row — (user, package) pair with a
numeric value. -/
structure Rating where
  id : Nat
  package_id : Nat
  user_id : Nat
  rating : Int
deriving DecidableEq

/-- The relational session state: the row lists of the five tables plus a
fresh-id allocator standing in for the database's id sequences. -/
structure Store where
  packages : List Package
  users : List FASUser
  tags : List Tag
  votes : List Vote
  ratings : List Rating
  nextId : Nat
deriving DecidableEq

/-- Modelled from the spec: `model.Package.by_name` — lookup-by-name,
NotFound-style failure (here `none`) when absent. -/
def Package.by_name (s : Store) (pkgname : String) : Option Package :=
  s.packages.find? (fun p => p.name == pkgname)

/-- Modelled from the spec: `model.FASUser.get_or_create` — reuse the user
row keyed by the requester address, or create (and flush) a fresh one. -/
def FASUser.get_or_create (s : Store) (ip : String) : Store × FASUser :=
  match s.users.find? (fun u => u.ipaddress == ip) with
  | some u => (s, u)
  | none =>
      let u : FASUser := { id := s.nextId, ipaddress := ip }
      ({ s with users := s.users ++ [u], nextId := s.nextId + 1 }, u)

/-- Modelled from the spec: `model.Tag.get` — the tag for (package, label),
NotFound-style failure (here `none`) when absent. -/
def Tag.get (s : Store) (pkgid : Nat) (label : String) : Option Tag :=
  s.tags.find? (fun t => t.package_id == pkgid && t.label == label)

/-- Modelled from the spec: `model.Vote.get` — the vote of user `uid` on tag
`tid` (at most one per (user, tag) pair), a store-level failure (here
`none`) when absent. -/
def Vote.get (s : Store) (uid tid : Nat) : Option Vote :=
  s.votes.find? (fun v => v.user_id == uid && v.tag_id == tid)

/-- Modelled from the spec: `model.Tag.count_unique_label` — number of
distinct tag labels across the whole store. -/
def Tag.count_unique_label (s : Store) : Nat :=
  (s.tags.map (fun t => t.label)).dedup.length

/-- The tags attached to a package (the ORM relationship `package.tags`). -/
def tagsOf (s : Store) (p : Package) : List Tag :=
  s.tags.filter (fun t => t.package_id == p.id)

/-- Functional update of a row list keyed by `key`: the embedding of
mutating an ORM-identity-mapped row in place. -/
def updateBy {α : Type} (key : α → Nat) (a : α) (l : List α) : List α :=
  l.map (fun x => if key x = key a then a else x)

/-- Write back a mutated Tag row. -/
def Store.setTag (s : Store) (t : Tag) : Store :=
  { s with tags := updateBy Tag.id t s.tags }

/-- Write back a mutated Vote row. -/
def Store.setVote (s : Store) (v : Vote) : Store :=
  { s with votes := updateBy Vote.id v s.votes }

/-- The failures an operation can leave behind: a raw store-level
NoResultFound escaping untranslated, or the domain `TaggerapiException`
with its message. -/
inductive TaggerError where
  | noResultFound
  | taggerapi (msg : String)
deriving DecidableEq

/-- True exactly on the domain exception (`TaggerapiException`). -/
def TaggerError.isDomain : TaggerError → Bool
  | .taggerapi _ => true
  | .noResultFound => false

/-- Message of `add_tag`: `'Tag "%s" added to the package "%s"'`. -/
def tagAddedMsg (tg pn : String) : String :=
  "Tag \"" ++ tg ++ "\" added to the package \"" ++ pn ++ "\""

/-- Message of `add_rating`: `'Rating "%s" added to the package "%s"'`. -/
def ratingAddedMsg (r : Int) (pn : String) : String :=
  "Rating \"" ++ toString r ++ "\" added to the package \"" ++ pn ++ "\""

/-- Message of the `TaggerapiException` raised by `add_vote`. -/
def tagNotFoundMsg : String :=
  "This tag could not be found associated to this package"

/-- Early-return message of `add_vote` when the polarity is unchanged. -/
def noChangeMsg (tg pn : String) : String :=
  "Your vote on the tag \"" ++ tg ++ "\" for the package \"" ++ pn ++
    "\" did not changed"

/-- Message of `add_vote`: `'Vote %s on the tag "%s" of the package "%s"'`. -/
def voteMsg (verb tg pn : String) : String :=
  "Vote " ++ verb ++ " on the tag \"" ++ tg ++ "\" of the package \"" ++
    pn ++ "\""

/-- Embedding of `taggerlib.add_tag(session, pkgname, tag, ipaddress)`.
The result pairs
the session state the call leaves behind with either the returned string or
the exception that escaped. A missing package propagates the raw
`NoResultFound` of `Package.by_name`; an existing tag gets `like += 1`; a
missing tag is created with its column defaults (`like = 1`,
`dislike = 0`, modelled from the spec); a `like`-polarity Vote row is then
always created, with no check for an existing vote by this user. -/
def add_tag (s : Store) (pkgname tg ip : String) :
    Store × Except TaggerError String :=
  match Package.by_name s pkgname with
  | none => (s, .error .noResultFound)
  | some package =>
      let s1 := (FASUser.get_or_create s ip).1
      let user := (FASUser.get_or_create s ip).2
      match Tag.get s1 package.id tg with
      | some tagobj =>
          let tagobj2 := { tagobj with like := tagobj.like + 1 }
          let s2 := s1.setTag tagobj2
          let voteobj : Vote :=
            { id := s2.nextId, user_id := user.id, tag_id := tagobj2.id,
              like := true }
          ({ s2 with votes := s2.votes ++ [voteobj], nextId := s2.nextId + 1 },
           .ok (tagAddedMsg tg pkgname))
      | none =>
          let tagobj : Tag :=
            { id := s1.nextId, package_id := package.id, label := tg,
              like := 1, dislike := 0 }
          let s2 := { s1 with tags := s1.tags ++ [tagobj],
                              nextId := s1.nextId + 1 }
          let voteobj : Vote :=
            { id := s2.nextId, user_id := user.id, tag_id := tagobj.id,
              like := true }
          ({ s2 with votes := s2.votes ++ [voteobj], nextId := s2.nextId + 1 },
           .ok (tagAddedMsg tg pkgname))

/-- Embedding of `taggerlib.add_rating(session, pkgname, rating,
ipaddress)`: resolve the
package (raw `NoResultFound` escapes when absent), get-or-create the user,
then unconditionally create a new Rating row. -/
def add_rating (s : Store) (pkgname : String) (rating : Int) (ip : String) :
    Store × Except TaggerError String :=
  match Package.by_name s pkgname with
  | none => (s, .error .noResultFound)
  | some package =>
      let s1 := (FASUser.get_or_create s ip).1
      let user := (FASUser.get_or_create s ip).2
      let ratingobj : Rating :=
        { id := s1.nextId, package_id := package.id, user_id := user.id,
          rating := rating }
      ({ s1 with ratings := s1.ratings ++ [ratingobj],
                 nextId := s1.nextId + 1 },
       .ok (ratingAddedMsg rating pkgname))

/-- Embedding of `taggerlib.add_vote(session, pkgname, tag, vote,
ipaddress)`: the user
is resolved or created first; failure of either the package or the tag
lookup is caught and re-raised as the domain `TaggerapiException`. An
existing vote of equal polarity returns early with no state change; a
differing polarity flips the counters and updates the vote row in place;
an absent vote creates the row and bumps the matching counter. -/
def add_vote (s : Store) (pkgname tg : String) (vote : Bool) (ip : String) :
    Store × Except TaggerError String :=
  let s1 := (FASUser.get_or_create s ip).1
  let user := (FASUser.get_or_create s ip).2
  match Package.by_name s1 pkgname with
  | none => (s1, .error (.taggerapi tagNotFoundMsg))
  | some package =>
      match Tag.get s1 package.id tg with
      | none => (s1, .error (.taggerapi tagNotFoundMsg))
      | some tagobj =>
          match Vote.get s1 user.id tagobj.id with
          | some voteobj =>
              if voteobj.like = vote then
                (s1, .ok (noChangeMsg tg pkgname))
              else
                let tagobj2 :=
                  if voteobj.like then
                    { tagobj with like := tagobj.like - 1,
                                  dislike := tagobj.dislike + 1 }
                  else
                    { tagobj with dislike := tagobj.dislike - 1,
                                  like := tagobj.like + 1 }
                let voteobj2 := { voteobj with like := vote }
                ((s1.setTag tagobj2).setVote voteobj2,
                 .ok (voteMsg "changed" tg pkgname))
          | none =>
              let tagobj2 :=
                if vote then { tagobj with like := tagobj.like + 1 }
                else { tagobj with dislike := tagobj.dislike + 1 }
              let voteobj : Vote :=
                { id := s1.nextId, user_id := user.id, tag_id := tagobj.id,
                  like := vote }
              let s2 := s1.setTag tagobj2
              ({ s2 with votes := s2.votes ++ [voteobj],
                         nextId := s2.nextId + 1 },
               .ok (voteMsg "added" tg pkgname))

/-- The six numbers of the `summary` mapping returned by `statistics`. -/
structure Summary where
  total_packages : Nat
  total_unique_tags : Nat
  no_tags : Nat
  with_tags : Nat
  tags_per_package : Rat
  tags_per_package_no_zeroes : Rat
deriving DecidableEq

/-- The return value of `statistics`: a mapping with the single key
`summary`. -/
structure Statistics where
  summary : Summary
deriving DecidableEq

/-- Insertion into the Python dict built by
`dict([(p.name, len(p.tags)) for p in packages])`: a later pair with the
same key overwrites the value in place, otherwise it is appended. -/
def dictInsert (d : List (String × Nat)) (k : String) (v : Nat) :
    List (String × Nat) :=
  if d.any (fun kv => kv.1 == k) then
    d.map (fun kv => if kv.1 == k then (k, v) else kv)
  else d ++ [(k, v)]

/-- Embedding of `taggerlib.statistics(session)`: per-package tag counts,
totals, and the
two guarded averages (Python float division embedded as `Rat`). -/
def statistics (s : Store) : Statistics :=
  let packages := s.packages
  let n_tags := Tag.count_unique_label s
  let raw_data :=
    packages.foldl (fun d p => dictInsert d p.name (tagsOf s p).length) []
  let n_packs := raw_data.length
  let no_tags := (raw_data.filter (fun kv => kv.2 == 0)).length
  let with_tags := n_packs - no_tags
  let sumTags := (packages.map (fun p => (tagsOf s p).length)).sum
  let tags_per_package : Rat :=
    if n_packs ≠ 0 then (sumTags : Rat) / (n_packs : Rat) else 0
  let tags_per_package_no_zeroes : Rat :=
    if with_tags ≠ 0 then (sumTags : Rat) / (with_tags : Rat) else 0
  { summary :=
    { total_packages := n_packs
      total_unique_tags := n_tags
      no_tags := no_tags
      with_tags := with_tags
      tags_per_package := tags_per_package
      tags_per_package_no_zeroes := tags_per_package_no_zeroes } }

/-- Number of `like`-polarity Vote rows on tag `tid` in a vote list. -/
def likeCountL (votes : List Vote) (tid : Nat) : Nat :=
  (votes.filter (fun v => v.tag_id == tid && v.like)).length

/-- Number of `dislike`-polarity Vote rows on tag `tid` in a vote list. -/
def dislikeCountL (votes : List Vote) (tid : Nat) : Nat :=
  (votes.filter (fun v => v.tag_id == tid && !v.like)).length

/-- The counter/vote invariant over explicit row lists. -/
def countersOkL (tags : List Tag) (votes : List Vote) : Prop :=
  ∀ t ∈ tags, t.like = (likeCountL votes t.id : Int) ∧
    t.dislike = (dislikeCountL votes t.id : Int)

/-- Number of `like`-polarity Vote rows on tag `tid`. -/
def likeCount (s : Store) (tid : Nat) : Nat :=
  likeCountL s.votes tid

/-- Number of `dislike`-polarity Vote rows on tag `tid`. -/
def dislikeCount (s : Store) (tid : Nat) : Nat :=
  dislikeCountL s.votes tid

/-- The counter/vote invariant of the data model: every Tag's `like` and
`dislike` counters equal the number of Vote rows of that polarity on it. -/
def countersOk (s : Store) : Prop :=
  countersOkL s.tags s.votes

/-- Number of `like`-polarity Vote rows by user `uid` on tag `tid`. -/
def pairLikeCount (s : Store) (uid tid : Nat) : Nat :=
  (s.votes.filter
    (fun v => v.user_id == uid && v.tag_id == tid && v.like)).length

/-- Structural well-formedness of a session state: ids are below the
allocator, row ids are unique per table, votes reference existing tags and
tags reference existing packages. -/
def Store.wf (s : Store) : Prop :=
  (∀ t ∈ s.tags, t.id < s.nextId) ∧
  (∀ v ∈ s.votes, v.id < s.nextId) ∧
  (∀ u ∈ s.users, u.id < s.nextId) ∧
  (s.tags.map Tag.id).Nodup ∧
  (s.votes.map Vote.id).Nodup ∧
  (∀ v ∈ s.votes, v.tag_id ∈ s.tags.map Tag.id) ∧
  (∀ t ∈ s.tags, t.package_id ∈ s.packages.map Package.id)

instance (s : Store) : Decidable (countersOk s) := by
  unfold countersOk countersOkL
  exact inferInstance

instance (s : Store) : Decidable s.wf := by
  unfold Store.wf
  exact inferInstance

/-- Runs `n` repeated `add_tag` calls with the same arguments, threading the
session state (return values and escaped errors dropped). -/
def iter_add_tag (pn tg ip : String) : Nat → Store → Store
  | 0, s => s
  | n + 1, s => iter_add_tag pn tg ip n (add_tag s pn tg ip).1

/-! ### Generic lemmas about `updateBy`, `find?` and filtered counts -/

lemma updateBy_of_forall_ne {α : Type} (key : α → Nat) (b : α) (l : List α)
    (h : ∀ x ∈ l, key x ≠ key b) : updateBy key b l = l := by
  unfold updateBy
  rw [List.map_congr_left (fun a ha => if_neg (h a ha))]
  simp

lemma map_key_updateBy {α : Type} (key : α → Nat) (b : α) (l : List α) :
    (updateBy key b l).map key = l.map key := by
  unfold updateBy
  rw [List.map_map]
  refine List.map_congr_left (fun a _ => ?_)
  by_cases h : key a = key b
  · simp [h]
  · simp [h]

lemma mem_updateBy {α : Type} {key : α → Nat} {b x : α} {l : List α}
    (h : x ∈ updateBy key b l) : x = b ∨ (x ∈ l ∧ key x ≠ key b) := by
  unfold updateBy at h
  obtain ⟨y, hy, hyx⟩ := List.mem_map.mp h
  by_cases hkey : key y = key b
  · rw [if_pos hkey] at hyx
    exact Or.inl hyx.symm
  · rw [if_neg hkey] at hyx
    exact Or.inr ⟨hyx ▸ hy, hyx ▸ hkey⟩

lemma self_mem_updateBy {α : Type} {key : α → Nat} {a b : α} {l : List α}
    (ha : a ∈ l) (hk : key b = key a) : b ∈ updateBy key b l := by
  unfold updateBy
  refine List.mem_map.mpr ⟨a, ha, ?_⟩
  simp [hk.symm]

lemma filter_length_append_single {α : Type} (p : α → Bool) (l : List α)
    (a : α) :
    ((l ++ [a]).filter p).length
      = (l.filter p).length + (if p a then 1 else 0) := by
  rw [List.filter_append, List.length_append]
  by_cases h : p a
  · simp [List.filter, h]
  · simp [List.filter, h]

lemma filter_length_updateBy {α : Type} (key : α → Nat) (p : α → Bool)
    (a b : α) (l : List α) (hmem : a ∈ l) (hnd : (l.map key).Nodup)
    (hk : key b = key a) :
    ((updateBy key b l).filter p).length + (if p a then 1 else 0)
      = (l.filter p).length + (if p b then 1 else 0) := by
  induction l with
  | nil => cases hmem
  | cons x t ih =>
      rw [List.map_cons, List.nodup_cons] at hnd
      obtain ⟨hx, hnd'⟩ := hnd
      rcases List.mem_cons.mp hmem with rfl | hat
      · have ht : updateBy key b t = t := by
          refine updateBy_of_forall_ne key b t (fun y hy he => hx ?_)
          rw [← (he.trans hk)]
          exact List.mem_map_of_mem key hy
        unfold updateBy
        rw [List.map_cons, if_pos hk.symm]
        show ((b :: updateBy key b t).filter p).length + _ = _
        rw [ht, List.filter_cons, List.filter_cons]
        by_cases hpb : p b <;> by_cases hpa : p a <;>
          simp [hpb, hpa] <;> try omega
      · have hxb : key x ≠ key b := by
          intro he
          refine hx ?_
          rw [he.trans hk]
          exact List.mem_map_of_mem key hat
        unfold updateBy
        rw [List.map_cons, if_neg hxb]
        show ((x :: updateBy key b t).filter p).length + _ = _
        rw [List.filter_cons, List.filter_cons]
        have := ih hat hnd'
        by_cases hpx : p x <;> simp [hpx] <;> omega

lemma find?_updateBy {α : Type} (key : α → Nat) (p : α → Bool) (a b : α)
    (l : List α) (hfind : l.find? p = some a) (hnd : (l.map key).Nodup)
    (hk : key b = key a) (hpb : p b = true) :
    (updateBy key b l).find? p = some b := by
  induction l with
  | nil => simp at hfind
  | cons x t ih =>
      rw [List.map_cons, List.nodup_cons] at hnd
      obtain ⟨hx, hnd'⟩ := hnd
      cases hpx : p x with
      | true =>
          rw [List.find?_cons_of_pos t hpx] at hfind
          have hax : x = a := by simpa using hfind
          subst hax
          unfold updateBy
          rw [List.map_cons, if_pos hk.symm]
          exact List.find?_cons_of_pos _ hpb
      | false =>
          rw [List.find?_cons_of_neg t (by simp [hpx])] at hfind
          have hxb : key x ≠ key b := by
            intro he
            refine hx ?_
            rw [he.trans hk]
            exact List.mem_map_of_mem key (List.mem_of_find?_eq_some hfind)
          unfold updateBy
          rw [List.map_cons, if_neg hxb]
          refine Eq.trans (List.find?_cons_of_neg _ (by simp [hpx])) ?_
          exact ih hfind hnd'

lemma find?_append_of_none {α : Type} (p : α → Bool) (l l₂ : List α)
    (h : l.find? p = none) : (l ++ l₂).find? p = l₂.find? p := by
  induction l with
  | nil => rfl
  | cons x t ih =>
      cases hx : p x with
      | true => simp [List.find?_cons, hx] at h
      | false =>
          simp only [List.cons_append, List.find?_cons, hx] at h ⊢
          exact ih h

lemma nodup_append_single {α : Type} (l : List α) (a : α) (hnd : l.Nodup)
    (ha : a ∉ l) : (l ++ [a]).Nodup := by
  simp [List.nodup_append, hnd, ha]

/-! ### Counter/vote invariant preservation, by mutation shape -/

lemma countersOkL_new_vote (tags : List Tag) (votes : List Vote)
    (tagobj : Tag) (nv : Vote)
    (hmem : tagobj ∈ tags) (hnd : (tags.map Tag.id).Nodup)
    (htid : nv.tag_id = tagobj.id)
    (hc : countersOkL tags votes) :
    countersOkL
      (updateBy Tag.id
        (if nv.like then { tagobj with like := tagobj.like + 1 }
         else { tagobj with dislike := tagobj.dislike + 1 }) tags)
      (votes ++ [nv]) := by
  intro t' ht'
  set bumped := (if nv.like then { tagobj with like := tagobj.like + 1 }
      else { tagobj with dislike := tagobj.dislike + 1 }) with hbdef
  have hbid : bumped.id = tagobj.id := by
    rw [hbdef]
    cases h : nv.like <;> simp [h]
  rcases mem_updateBy ht' with rfl | ⟨hmem', hne'⟩
  · obtain ⟨hl, hd⟩ := hc tagobj hmem
    have hlc : likeCountL (votes ++ [nv]) tagobj.id
        = likeCountL votes tagobj.id + (if nv.like = true then 1 else 0) := by
      unfold likeCountL
      rw [filter_length_append_single]
      congr 1
      simp [htid]
    have hdc : dislikeCountL (votes ++ [nv]) tagobj.id
        = dislikeCountL votes tagobj.id + (if nv.like = true then 0 else 1) := by
      unfold dislikeCountL
      rw [filter_length_append_single]
      cases h : nv.like <;> simp [htid, h]
    rw [hbid, hlc, hdc]
    cases h : nv.like <;> simp [hbdef, h] <;> omega
  · rw [hbid] at hne'
    obtain ⟨hl, hd⟩ := hc t' hmem'
    have hnvt : (nv.tag_id == t'.id) = false := by
      rw [htid]
      exact beq_eq_false_iff_ne.mpr (Ne.symm hne')
    have hlc : likeCountL (votes ++ [nv]) t'.id = likeCountL votes t'.id := by
      unfold likeCountL
      rw [filter_length_append_single]
      simp [hnvt]
    have hdc : dislikeCountL (votes ++ [nv]) t'.id
        = dislikeCountL votes t'.id := by
      unfold dislikeCountL
      rw [filter_length_append_single]
      simp [hnvt]
    rw [hlc, hdc]
    exact ⟨hl, hd⟩

lemma countersOkL_fresh_tag (tags : List Tag) (votes : List Vote)
    (tagobj : Tag) (nv : Vote)
    (hvfresh : ∀ v ∈ votes, v.tag_id ≠ tagobj.id)
    (htfresh : ∀ t ∈ tags, t.id ≠ tagobj.id)
    (htid : nv.tag_id = tagobj.id) (hnvlike : nv.like = true)
    (hlike : tagobj.like = 1) (hdis : tagobj.dislike = 0)
    (hc : countersOkL tags votes) :
    countersOkL (tags ++ [tagobj]) (votes ++ [nv]) := by
  intro t' ht'
  rcases List.mem_append.mp ht' with hmem' | hmem'
  · have hne' : t'.id ≠ tagobj.id := htfresh t' hmem'
    obtain ⟨hl, hd⟩ := hc t' hmem'
    have hnvt : (nv.tag_id == t'.id) = false := by
      rw [htid]
      exact beq_eq_false_iff_ne.mpr (Ne.symm hne')
    have hlc : likeCountL (votes ++ [nv]) t'.id = likeCountL votes t'.id := by
      unfold likeCountL
      rw [filter_length_append_single]
      simp [hnvt]
    have hdc : dislikeCountL (votes ++ [nv]) t'.id
        = dislikeCountL votes t'.id := by
      unfold dislikeCountL
      rw [filter_length_append_single]
      simp [hnvt]
    rw [hlc, hdc]
    exact ⟨hl, hd⟩
  · have heq : t' = tagobj := by simpa using hmem'
    subst heq
    have hlnil : votes.filter (fun v => v.tag_id == t'.id && v.like) = [] := by
      refine List.filter_eq_nil_iff.mpr (fun v hv => ?_)
      simp [beq_eq_false_iff_ne.mpr (hvfresh v hv)]
    have hdnil : votes.filter (fun v => v.tag_id == t'.id && !v.like) = [] := by
      refine List.filter_eq_nil_iff.mpr (fun v hv => ?_)
      simp [beq_eq_false_iff_ne.mpr (hvfresh v hv)]
    constructor
    · unfold likeCountL
      rw [filter_length_append_single, hlnil]
      simp [htid, hnvlike, hlike]
    · unfold dislikeCountL
      rw [filter_length_append_single, hdnil]
      simp [htid, hnvlike, hdis]

lemma countersOkL_flip (tags : List Tag) (votes : List Vote)
    (tagobj : Tag) (voteobj : Vote) (pol : Bool)
    (hmemt : tagobj ∈ tags) (hndt : (tags.map Tag.id).Nodup)
    (hmemv : voteobj ∈ votes) (hndv : (votes.map Vote.id).Nodup)
    (htid : voteobj.tag_id = tagobj.id)
    (hne : ¬ (voteobj.like = pol))
    (hc : countersOkL tags votes) :
    countersOkL
      (updateBy Tag.id
        (if voteobj.like then
          { tagobj with like := tagobj.like - 1,
                        dislike := tagobj.dislike + 1 }
         else
          { tagobj with dislike := tagobj.dislike - 1,
                        like := tagobj.like + 1 }) tags)
      (updateBy Vote.id { voteobj with like := pol } votes) := by
  have hfid : (if voteobj.like then
      { tagobj with like := tagobj.like - 1, dislike := tagobj.dislike + 1 }
    else
      { tagobj with dislike := tagobj.dislike - 1,
                    like := tagobj.like + 1 }).id = tagobj.id := by
    cases h : voteobj.like <;> simp [h]
  intro t' ht'
  have hlcnt := filter_length_updateBy Vote.id
    (fun v => v.tag_id == tagobj.id && v.like) voteobj
    { voteobj with like := pol } votes hmemv hndv rfl
  have hdcnt := filter_length_updateBy Vote.id
    (fun v => v.tag_id == tagobj.id && !v.like) voteobj
    { voteobj with like := pol } votes hmemv hndv rfl
  rcases mem_updateBy ht' with rfl | ⟨hmem', hne'⟩
  · obtain ⟨hl, hd⟩ := hc tagobj hmemt
    simp only [likeCountL, dislikeCountL] at hl hd ⊢
    rw [hfid]
    cases hvl : voteobj.like <;> cases hpl : pol
    · exact absurd (hvl.trans hpl.symm) hne
    · simp only [hvl, hpl, htid] at hlcnt hdcnt ⊢
      simp at hlcnt hdcnt ⊢
      omega
    · simp only [hvl, hpl, htid] at hlcnt hdcnt ⊢
      simp at hlcnt hdcnt ⊢
      omega
    · exact absurd (hvl.trans hpl.symm) hne
  · rw [hfid] at hne'
    obtain ⟨hl, hd⟩ := hc t' hmem'
    have hlcnt' := filter_length_updateBy Vote.id
      (fun v => v.tag_id == t'.id && v.like) voteobj
      { voteobj with like := pol } votes hmemv hndv rfl
    have hdcnt' := filter_length_updateBy Vote.id
      (fun v => v.tag_id == t'.id && !v.like) voteobj
      { voteobj with like := pol } votes hmemv hndv rfl
    have hvt : (voteobj.tag_id == t'.id) = false := by
      rw [htid]
      exact beq_eq_false_iff_ne.mpr (Ne.symm hne')
    simp only [likeCountL, dislikeCountL] at hl hd ⊢
    simp only [hvt] at hlcnt' hdcnt' ⊢
    simp at hlcnt' hdcnt' ⊢
    omega

/-! ### Facts about the store primitives -/

lemma get_or_create_packages (s : Store) (ip : String) :
    (FASUser.get_or_create s ip).1.packages = s.packages := by
  unfold FASUser.get_or_create
  cases h : s.users.find? (fun u => u.ipaddress == ip) <;> simp

lemma get_or_create_tags (s : Store) (ip : String) :
    (FASUser.get_or_create s ip).1.tags = s.tags := by
  unfold FASUser.get_or_create
  cases h : s.users.find? (fun u => u.ipaddress == ip) <;> simp

lemma get_or_create_votes (s : Store) (ip : String) :
    (FASUser.get_or_create s ip).1.votes = s.votes := by
  unfold FASUser.get_or_create
  cases h : s.users.find? (fun u => u.ipaddress == ip) <;> simp

lemma get_or_create_ratings (s : Store) (ip : String) :
    (FASUser.get_or_create s ip).1.ratings = s.ratings := by
  unfold FASUser.get_or_create
  cases h : s.users.find? (fun u => u.ipaddress == ip) <;> simp

lemma get_or_create_nextId_le (s : Store) (ip : String) :
    s.nextId ≤ (FASUser.get_or_create s ip).1.nextId := by
  unfold FASUser.get_or_create
  cases h : s.users.find? (fun u => u.ipaddress == ip) <;> simp

lemma get_or_create_of_find (s : Store) (ip : String) (u : FASUser)
    (hu : s.users.find? (fun x => x.ipaddress == ip) = some u) :
    FASUser.get_or_create s ip = (s, u) := by
  unfold FASUser.get_or_create
  rw [hu]

lemma by_name_congr (s s' : Store) (pn : String)
    (h : s'.packages = s.packages) :
    Package.by_name s' pn = Package.by_name s pn := by
  unfold Package.by_name
  rw [h]

lemma tag_get_congr (s s' : Store) (pid : Nat) (tg : String)
    (h : s'.tags = s.tags) : Tag.get s' pid tg = Tag.get s pid tg := by
  unfold Tag.get
  rw [h]

lemma by_name_mem (s : Store) (pn : String) (p : Package)
    (hp : Package.by_name s pn = some p) : p ∈ s.packages :=
  List.mem_of_find?_eq_some hp

lemma tag_get_mem (s : Store) (pid : Nat) (tg : String) (t : Tag)
    (ht : Tag.get s pid tg = some t) : t ∈ s.tags :=
  List.mem_of_find?_eq_some ht

lemma tag_get_fields (s : Store) (pid : Nat) (tg : String) (t : Tag)
    (ht : Tag.get s pid tg = some t) : t.package_id = pid ∧ t.label = tg := by
  have h := List.find?_some ht
  simp only [Bool.and_eq_true, beq_iff_eq] at h
  exact h

lemma vote_get_mem (s : Store) (uid tid : Nat) (v : Vote)
    (hv : Vote.get s uid tid = some v) : v ∈ s.votes :=
  List.mem_of_find?_eq_some hv

lemma vote_get_fields (s : Store) (uid tid : Nat) (v : Vote)
    (hv : Vote.get s uid tid = some v) : v.user_id = uid ∧ v.tag_id = tid := by
  have h := List.find?_some hv
  simp only [Bool.and_eq_true, beq_iff_eq] at h
  exact h

lemma wf_get_or_create (s : Store) (ip : String) (hwf : s.wf) :
    (FASUser.get_or_create s ip).1.wf := by
  unfold FASUser.get_or_create
  cases h : s.users.find? (fun u => u.ipaddress == ip) with
  | some u => simpa using hwf
  | none =>
      obtain ⟨hb1, hb2, hb3, hnd4, hnd5, href6, href7⟩ := hwf
      refine ⟨?_, ?_, ?_, ?_, ?_, ?_, ?_⟩
      · exact fun t ht => Nat.lt_succ_of_lt (hb1 t ht)
      · exact fun v hv => Nat.lt_succ_of_lt (hb2 v hv)
      · intro u hu
        rcases List.mem_append.mp hu with hu' | hu'
        · exact Nat.lt_succ_of_lt (hb3 u hu')
        · have : u = ⟨s.nextId, ip⟩ := by simpa using hu'
          subst this
          exact Nat.lt_succ_self _
      · exact hnd4
      · exact hnd5
      · exact href6
      · exact href7

/-! ### Branch-by-branch characterization of the four operations -/

lemma add_tag_nopkg_eq (s : Store) (pn tg ip : String)
    (hp : Package.by_name s pn = none) :
    add_tag s pn tg ip = (s, .error .noResultFound) := by
  simp only [add_tag, hp]

lemma add_tag_existing_eq (s s1 : Store) (u : FASUser) (pn tg ip : String)
    (p : Package) (tagobj : Tag)
    (hg : FASUser.get_or_create s ip = (s1, u))
    (hp : Package.by_name s pn = some p)
    (ht : Tag.get s1 p.id tg = some tagobj) :
    add_tag s pn tg ip =
      ({ s1 with
          tags := updateBy Tag.id { tagobj with like := tagobj.like + 1 }
            s1.tags,
          votes := s1.votes ++ [⟨s1.nextId, u.id, tagobj.id, true⟩],
          nextId := s1.nextId + 1 },
       .ok (tagAddedMsg tg pn)) := by
  simp only [add_tag, hp, hg, ht, Store.setTag]

lemma add_tag_fresh_eq (s s1 : Store) (u : FASUser) (pn tg ip : String)
    (p : Package)
    (hg : FASUser.get_or_create s ip = (s1, u))
    (hp : Package.by_name s pn = some p)
    (ht : Tag.get s1 p.id tg = none) :
    add_tag s pn tg ip =
      ({ s1 with
          tags := s1.tags ++ [⟨s1.nextId, p.id, tg, 1, 0⟩],
          votes := s1.votes ++ [⟨s1.nextId + 1, u.id, s1.nextId, true⟩],
          nextId := s1.nextId + 2 },
       .ok (tagAddedMsg tg pn)) := by
  simp only [add_tag, hp, hg, ht]

lemma add_rating_nopkg_eq (s : Store) (pn : String) (r : Int) (ip : String)
    (hp : Package.by_name s pn = none) :
    add_rating s pn r ip = (s, .error .noResultFound) := by
  simp only [add_rating, hp]

lemma add_rating_ok_eq (s s1 : Store) (u : FASUser) (pn : String) (r : Int)
    (ip : String) (p : Package)
    (hg : FASUser.get_or_create s ip = (s1, u))
    (hp : Package.by_name s pn = some p) :
    add_rating s pn r ip =
      ({ s1 with
          ratings := s1.ratings ++ [⟨s1.nextId, p.id, u.id, r⟩],
          nextId := s1.nextId + 1 },
       .ok (ratingAddedMsg r pn)) := by
  simp only [add_rating, hp, hg]

lemma add_vote_nopkg_eq (s s1 : Store) (u : FASUser) (pn tg ip : String)
    (vote : Bool)
    (hg : FASUser.get_or_create s ip = (s1, u))
    (hp : Package.by_name s1 pn = none) :
    add_vote s pn tg vote ip = (s1, .error (.taggerapi tagNotFoundMsg)) := by
  simp only [add_vote, hg, hp]

lemma add_vote_notag_eq (s s1 : Store) (u : FASUser) (pn tg ip : String)
    (vote : Bool) (p : Package)
    (hg : FASUser.get_or_create s ip = (s1, u))
    (hp : Package.by_name s1 pn = some p)
    (ht : Tag.get s1 p.id tg = none) :
    add_vote s pn tg vote ip = (s1, .error (.taggerapi tagNotFoundMsg)) := by
  simp only [add_vote, hg, hp, ht]

lemma add_vote_same_eq (s s1 : Store) (u : FASUser) (pn tg ip : String)
    (vote : Bool) (p : Package) (tagobj : Tag) (voteobj : Vote)
    (hg : FASUser.get_or_create s ip = (s1, u))
    (hp : Package.by_name s1 pn = some p)
    (ht : Tag.get s1 p.id tg = some tagobj)
    (hv : Vote.get s1 u.id tagobj.id = some voteobj)
    (hsame : voteobj.like = vote) :
    add_vote s pn tg vote ip = (s1, .ok (noChangeMsg tg pn)) := by
  simp only [add_vote, hg, hp, ht, hv, hsame, if_pos]

lemma add_vote_flip_eq (s s1 : Store) (u : FASUser) (pn tg ip : String)
    (vote : Bool) (p : Package) (tagobj : Tag) (voteobj : Vote)
    (hg : FASUser.get_or_create s ip = (s1, u))
    (hp : Package.by_name s1 pn = some p)
    (ht : Tag.get s1 p.id tg = some tagobj)
    (hv : Vote.get s1 u.id tagobj.id = some voteobj)
    (hne : ¬ (voteobj.like = vote)) :
    add_vote s pn tg vote ip =
      ({ s1 with
          tags := updateBy Tag.id
            (if voteobj.like then
              { tagobj with like := tagobj.like - 1,
                            dislike := tagobj.dislike + 1 }
             else
              { tagobj with dislike := tagobj.dislike - 1,
                            like := tagobj.like + 1 }) s1.tags,
          votes := updateBy Vote.id { voteobj with like := vote } s1.votes },
       .ok (voteMsg "changed" tg pn)) := by
  simp only [add_vote, hg, hp, ht, hv, Store.setTag, Store.setVote]
  rw [if_neg hne]

lemma add_vote_create_eq (s s1 : Store) (u : FASUser) (pn tg ip : String)
    (vote : Bool) (p : Package) (tagobj : Tag)
    (hg : FASUser.get_or_create s ip = (s1, u))
    (hp : Package.by_name s1 pn = some p)
    (ht : Tag.get s1 p.id tg = some tagobj)
    (hv : Vote.get s1 u.id tagobj.id = none) :
    add_vote s pn tg vote ip =
      ({ s1 with
          tags := updateBy Tag.id
            (if vote then { tagobj with like := tagobj.like + 1 }
             else { tagobj with dislike := tagobj.dislike + 1 }) s1.tags,
          votes := s1.votes ++ [⟨s1.nextId, u.id, tagobj.id, vote⟩],
          nextId := s1.nextId + 1 },
       .ok (voteMsg "added" tg pn)) := by
  simp only [add_vote, hg, hp, ht, hv, Store.setTag]

/-! ### The invariant is preserved by `add_tag` and `add_vote` -/

lemma countersOk_add_tag (s : Store) (pn tg ip : String)
    (hwf : s.wf) (hc : countersOk s) : countersOk (add_tag s pn tg ip).1 := by
  cases hp : Package.by_name s pn with
  | none =>
      rw [add_tag_nopkg_eq s pn tg ip hp]
      exact hc
  | some p =>
      rcases hg : FASUser.get_or_create s ip with ⟨s1, u⟩
      have htg : s1.tags = s.tags := by
        have h := get_or_create_tags s ip
        rw [hg] at h
        exact h
      have hvt : s1.votes = s.votes := by
        have h := get_or_create_votes s ip
        rw [hg] at h
        exact h
      have hnle : s.nextId ≤ s1.nextId := by
        have h := get_or_create_nextId_le s ip
        rw [hg] at h
        exact h
      obtain ⟨hb1, hb2, hb3, hnd4, hnd5, href6, href7⟩ := hwf
      cases ht : Tag.get s1 p.id tg with
      | some tagobj =>
          rw [add_tag_existing_eq s s1 u pn tg ip p tagobj hg hp ht]
          unfold countersOk
          rw [htg, hvt]
          have hmem : tagobj ∈ s.tags := by
            rw [← htg]
            exact tag_get_mem s1 p.id tg tagobj ht
          have happ := countersOkL_new_vote s.tags s.votes tagobj
            ⟨s1.nextId, u.id, tagobj.id, true⟩ hmem hnd4 rfl hc
          simpa using happ
      | none =>
          rw [add_tag_fresh_eq s s1 u pn tg ip p hg hp ht]
          unfold countersOk
          rw [htg, hvt]
          refine countersOkL_fresh_tag s.tags s.votes
            ⟨s1.nextId, p.id, tg, 1, 0⟩
            ⟨s1.nextId + 1, u.id, s1.nextId, true⟩ ?_ ?_ rfl rfl rfl rfl hc
          · intro v hv
            show v.tag_id ≠ s1.nextId
            obtain ⟨t, htmem, hid⟩ := List.mem_map.mp (href6 v hv)
            have := hb1 t htmem
            omega
          · intro t htm
            show t.id ≠ s1.nextId
            have := hb1 t htm
            omega

lemma countersOk_add_vote (s : Store) (pn tg ip : String) (vote : Bool)
    (hwf : s.wf) (hc : countersOk s) :
    countersOk (add_vote s pn tg vote ip).1 := by
  rcases hg : FASUser.get_or_create s ip with ⟨s1, u⟩
  have htg : s1.tags = s.tags := by
    have h := get_or_create_tags s ip
    rw [hg] at h
    exact h
  have hvt : s1.votes = s.votes := by
    have h := get_or_create_votes s ip
    rw [hg] at h
    exact h
  have hc1 : countersOk s1 := by
    unfold countersOk
    rw [htg, hvt]
    exact hc
  obtain ⟨hb1, hb2, hb3, hnd4, hnd5, href6, href7⟩ := hwf
  cases hp : Package.by_name s1 pn with
  | none =>
      rw [add_vote_nopkg_eq s s1 u pn tg ip vote hg hp]
      exact hc1
  | some p =>
      cases ht : Tag.get s1 p.id tg with
      | none =>
          rw [add_vote_notag_eq s s1 u pn tg ip vote p hg hp ht]
          exact hc1
      | some tagobj =>
          have hmem : tagobj ∈ s.tags := by
            rw [← htg]
            exact tag_get_mem s1 p.id tg tagobj ht
          cases hv : Vote.get s1 u.id tagobj.id with
          | some voteobj =>
              by_cases hsame : voteobj.like = vote
              · rw [add_vote_same_eq s s1 u pn tg ip vote p tagobj voteobj
                  hg hp ht hv hsame]
                exact hc1
              · rw [add_vote_flip_eq s s1 u pn tg ip vote p tagobj voteobj
                  hg hp ht hv hsame]
                unfold countersOk
                rw [htg, hvt]
                have hmemv : voteobj ∈ s.votes := by
                  rw [← hvt]
                  exact vote_get_mem s1 u.id tagobj.id voteobj hv
                exact countersOkL_flip s.tags s.votes tagobj voteobj vote
                  hmem hnd4 hmemv hnd5
                  (vote_get_fields s1 u.id tagobj.id voteobj hv).2 hsame hc
          | none =>
              rw [add_vote_create_eq s s1 u pn tg ip vote p tagobj hg hp ht hv]
              unfold countersOk
              rw [htg, hvt]
              exact countersOkL_new_vote s.tags s.votes tagobj
                ⟨s1.nextId, u.id, tagobj.id, vote⟩ hmem hnd4 rfl hc

lemma updateBy_length {α : Type} (key : α → Nat) (b : α) (l : List α) :
    (updateBy key b l).length = l.length := by
  unfold updateBy
  exact List.length_map l _

/-- One `add_tag` call on an existing tag: the session stays well-formed,
users and packages are untouched, the tag's `like` counter is bumped by
one, and one more `like`-polarity vote row by this user on this tag
exists. -/
lemma add_tag_existing_full_step (s : Store) (pn tg ip : String)
    (p : Package) (u : FASUser) (tagobj : Tag)
    (hwf : s.wf)
    (hu : s.users.find? (fun x => x.ipaddress == ip) = some u)
    (hp : Package.by_name s pn = some p)
    (ht : Tag.get s p.id tg = some tagobj) :
    (add_tag s pn tg ip).1.wf ∧
    (add_tag s pn tg ip).1.users = s.users ∧
    (add_tag s pn tg ip).1.packages = s.packages ∧
    Tag.get (add_tag s pn tg ip).1 p.id tg
      = some { tagobj with like := tagobj.like + 1 } ∧
    pairLikeCount (add_tag s pn tg ip).1 u.id tagobj.id
      = pairLikeCount s u.id tagobj.id + 1 ∧
    (add_tag s pn tg ip).1.votes.length = s.votes.length + 1 := by
  have hg := get_or_create_of_find s ip u hu
  have heq := add_tag_existing_eq s s u pn tg ip p tagobj hg hp ht
  rw [heq]
  obtain ⟨hb1, hb2, hb3, hnd4, hnd5, href6, href7⟩ := hwf
  have hmem : tagobj ∈ s.tags := tag_get_mem s p.id tg tagobj ht
  refine ⟨⟨?_, ?_, ?_, ?_, ?_, ?_, ?_⟩, rfl, rfl, ?_, ?_, ?_⟩
  · intro t htm
    rcases mem_updateBy htm with rfl | ⟨hmem', _⟩
    · show tagobj.id < s.nextId + 1
      have := hb1 tagobj hmem
      omega
    · show t.id < s.nextId + 1
      have := hb1 t hmem'
      omega
  · intro v hvm
    rcases List.mem_append.mp hvm with hm | hm
    · show v.id < s.nextId + 1
      have := hb2 v hm
      omega
    · have hveq : v = ⟨s.nextId, u.id, tagobj.id, true⟩ := by simpa using hm
      subst hveq
      show s.nextId < s.nextId + 1
      omega
  · intro w hw
    show w.id < s.nextId + 1
    have := hb3 w hw
    omega
  · show (List.map Tag.id
      (updateBy Tag.id { tagobj with like := tagobj.like + 1 } s.tags)).Nodup
    rw [map_key_updateBy]
    exact hnd4
  · show (List.map Vote.id
      (s.votes ++ [⟨s.nextId, u.id, tagobj.id, true⟩])).Nodup
    rw [List.map_append]
    show (List.map Vote.id s.votes ++ [s.nextId]).Nodup
    refine nodup_append_single _ _ hnd5 ?_
    intro hmm
    obtain ⟨v, hvm, hid⟩ := List.mem_map.mp hmm
    have := hb2 v hvm
    omega
  · intro v hvm
    show v.tag_id ∈ (updateBy Tag.id
      { tagobj with like := tagobj.like + 1 } s.tags).map Tag.id
    rw [map_key_updateBy]
    rcases List.mem_append.mp hvm with hm | hm
    · exact href6 v hm
    · have hveq : v = ⟨s.nextId, u.id, tagobj.id, true⟩ := by simpa using hm
      subst hveq
      show tagobj.id ∈ s.tags.map Tag.id
      exact List.mem_map_of_mem Tag.id hmem
  · intro t htm
    rcases mem_updateBy htm with rfl | ⟨hmem', _⟩
    · show tagobj.package_id ∈ s.packages.map Package.id
      exact href7 tagobj hmem
    · exact href7 t hmem'
  · show (updateBy Tag.id { tagobj with like := tagobj.like + 1 }
        s.tags).find? (fun t => t.package_id == p.id && t.label == tg)
      = some { tagobj with like := tagobj.like + 1 }
    refine find?_updateBy Tag.id _ tagobj _ s.tags ht hnd4 rfl ?_
    have hf := tag_get_fields s p.id tg tagobj ht
    simp [hf.1, hf.2]
  · show ((s.votes ++ [(⟨s.nextId, u.id, tagobj.id, true⟩ : Vote)]).filter
        (fun v : Vote =>
          v.user_id == u.id && v.tag_id == tagobj.id && v.like)).length
      = pairLikeCount s u.id tagobj.id + 1
    rw [filter_length_append_single]
    simp [pairLikeCount]
  · show (s.votes ++ [(⟨s.nextId, u.id, tagobj.id, true⟩ : Vote)]).length
      = s.votes.length + 1
    simp

/-- Effect of `n` repeated `add_tag` calls on an existing tag by an
existing user: `like` grows by `n` and `n` like-votes by this user on this
tag pile up. -/
lemma iter_add_tag_spec (pn tg ip : String) (p : Package) (u : FASUser)
    (n : Nat) :
    ∀ (s : Store) (tagobj : Tag), s.wf →
      s.users.find? (fun x => x.ipaddress == ip) = some u →
      Package.by_name s pn = some p →
      Tag.get s p.id tg = some tagobj →
      ∃ tN, Tag.get (iter_add_tag pn tg ip n s) p.id tg = some tN ∧
        tN.id = tagobj.id ∧
        tN.like = tagobj.like + n ∧
        tN.dislike = tagobj.dislike ∧
        pairLikeCount (iter_add_tag pn tg ip n s) u.id tagobj.id
          = pairLikeCount s u.id tagobj.id + n ∧
        (iter_add_tag pn tg ip n s).votes.length = s.votes.length + n := by
  induction n with
  | zero =>
      intro s tagobj hwf hu hp ht
      exact ⟨tagobj, ht, rfl, by simp, rfl, by simp [iter_add_tag],
        by simp [iter_add_tag]⟩
  | succ n ih =>
      intro s tagobj hwf hu hp ht
      obtain ⟨hwf', husers, hpks, htg', hcnt, hlen⟩ :=
        add_tag_existing_full_step s pn tg ip p u tagobj hwf hu hp ht
      have hu' : (add_tag s pn tg ip).1.users.find?
          (fun x => x.ipaddress == ip) = some u := by
        rw [husers]
        exact hu
      have hp' : Package.by_name (add_tag s pn tg ip).1 pn = some p := by
        rw [by_name_congr s (add_tag s pn tg ip).1 pn hpks]
        exact hp
      obtain ⟨tN, h1, h2, h3, h4, h5, h6⟩ :=
        ih (add_tag s pn tg ip).1 { tagobj with like := tagobj.like + 1 }
          hwf' hu' hp' htg'
      have h2' : tN.id = tagobj.id := h2
      have h3' : tN.like = tagobj.like + 1 + (n : Int) := h3
      have h4' : tN.dislike = tagobj.dislike := h4
      have h5' : pairLikeCount (iter_add_tag pn tg ip n (add_tag s pn tg ip).1)
          u.id tagobj.id
            = pairLikeCount (add_tag s pn tg ip).1 u.id tagobj.id + n := h5
      refine ⟨tN, ?_, h2', ?_, h4', ?_, ?_⟩
      · show Tag.get (iter_add_tag pn tg ip n (add_tag s pn tg ip).1) p.id tg
          = some tN
        exact h1
      · rw [h3']
        push_cast
        ring
      · show pairLikeCount (iter_add_tag pn tg ip n (add_tag s pn tg ip).1)
            u.id tagobj.id
          = pairLikeCount s u.id tagobj.id + (n + 1)
        omega
      · show (iter_add_tag pn tg ip n (add_tag s pn tg ip).1).votes.length
          = s.votes.length + (n + 1)
        omega

lemma get_or_create_users_find (s : Store) (ip : String) :
    (FASUser.get_or_create s ip).1.users.find? (fun x => x.ipaddress == ip)
      = some (FASUser.get_or_create s ip).2 := by
  unfold FASUser.get_or_create
  cases h : s.users.find? (fun u => u.ipaddress == ip) with
  | some u => simpa using h
  | none =>
      simp only []
      rw [find?_append_of_none _ _ _ h]
      simp

lemma get_or_create_congr_users (s s' : Store) (ip : String)
    (h : s'.users = (FASUser.get_or_create s ip).1.users) :
    FASUser.get_or_create s' ip = (s', (FASUser.get_or_create s ip).2) := by
  apply get_or_create_of_find
  rw [h]
  exact get_or_create_users_find s ip

/-! ### Concrete stores used by the witnesses -/

/-- A small well-formed store: two packages, one user, one tag carrying one
like-vote. -/
def exStore : Store :=
  { packages := [⟨1, "A", "pa"⟩, ⟨2, "B", "pb"⟩]
    users := [⟨3, "ip1"⟩]
    tags := [⟨4, 1, "t", 1, 0⟩]
    votes := [⟨5, 3, 4, true⟩]
    ratings := []
    nextId := 6 }

/-- The empty store. -/
def emptyStore : Store :=
  { packages := [], users := [], tags := [], votes := [], ratings := [],
    nextId := 0 }

/-- Two packages, one carrying three tags and one carrying none: the
statistics example of the spec. -/
def statsStore : Store :=
  { packages := [⟨1, "A", ""⟩, ⟨2, "B", ""⟩]
    users := []
    tags := [⟨3, 1, "t1", 1, 0⟩, ⟨4, 1, "t2", 1, 0⟩, ⟨5, 1, "t3", 1, 0⟩]
    votes := []
    ratings := []
    nextId := 6 }

/-! ### The claims -/

/-- Claim C1: for every Tag in the store, the like counter equals the
number of like-polarity votes on it and the dislike counter the number of
dislike-polarity votes, and this invariant is preserved by every execution
of `add_tag` and `add_vote`. -/
theorem claim_C1_counter_invariant_preserved (s : Store)
    (pn tg ip : String) (vote : Bool) (hwf : s.wf) (hc : countersOk s) :
    countersOk (add_tag s pn tg ip).1 ∧
      countersOk (add_vote s pn tg vote ip).1 :=
  ⟨countersOk_add_tag s pn tg ip hwf hc,
   countersOk_add_vote s pn tg ip vote hwf hc⟩

/-- Witness for C1: the hypotheses hold at a concrete store and the
invariant of the two post-states follows from the theorem. -/
theorem claim_C1_counter_invariant_preserved_witness :
    Store.wf exStore ∧ countersOk exStore ∧
      (countersOk (add_tag exStore "A" "t" "ip1").1 ∧
        countersOk (add_vote exStore "A" "t" false "ip1").1) :=
  ⟨by decide, by decide,
   claim_C1_counter_invariant_preserved exStore "A" "t" "ip1" false
     (by decide) (by decide)⟩

/-- Claim C10: under the §3 counter/vote invariant, `add_vote` never drives
a counter below zero: every tag of the post-state has nonnegative
counters. -/
theorem claim_C10_counters_nonneg (s : Store) (pn tg ip : String)
    (vote : Bool) (hwf : s.wf) (hc : countersOk s) :
    ∀ t ∈ (add_vote s pn tg vote ip).1.tags, 0 ≤ t.like ∧ 0 ≤ t.dislike := by
  intro t htm
  obtain ⟨hl, hd⟩ := countersOk_add_vote s pn tg ip vote hwf hc t htm
  omega

/-- Witness for C10 at a concrete store, across the flip branch. -/
theorem claim_C10_counters_nonneg_witness :
    Store.wf exStore ∧ countersOk exStore ∧
      (∀ t ∈ (add_vote exStore "A" "t" false "ip1").1.tags,
        0 ≤ t.like ∧ 0 ≤ t.dislike) :=
  ⟨by decide, by decide,
   claim_C10_counters_nonneg exStore "A" "t" "ip1" false
     (by decide) (by decide)⟩

/-- Claim C4: when the requesting user's existing vote on the resolved tag
already has the requested polarity, `add_vote` changes no store state at
all and returns the "did not changed" message; in particular the call is
idempotent. -/
theorem claim_C4_same_polarity_noop (s : Store) (pn tg ip : String)
    (vote : Bool) (p : Package) (u : FASUser) (tagobj : Tag) (voteobj : Vote)
    (hu : s.users.find? (fun x => x.ipaddress == ip) = some u)
    (hp : Package.by_name s pn = some p)
    (ht : Tag.get s p.id tg = some tagobj)
    (hv : Vote.get s u.id tagobj.id = some voteobj)
    (hsame : voteobj.like = vote) :
    add_vote s pn tg vote ip = (s, .ok (noChangeMsg tg pn)) ∧
      (add_vote (add_vote s pn tg vote ip).1 pn tg vote ip).1
        = (add_vote s pn tg vote ip).1 := by
  have hg := get_or_create_of_find s ip u hu
  have h1 := add_vote_same_eq s s u pn tg ip vote p tagobj voteobj
    hg hp ht hv hsame
  refine ⟨h1, ?_⟩
  rw [h1]
  show (add_vote s pn tg vote ip).1 = s
  rw [h1]

/-- Witness for C4 at a concrete store: re-liking an already-liked tag. -/
theorem claim_C4_same_polarity_noop_witness :
    exStore.users.find? (fun x => x.ipaddress == "ip1") = some ⟨3, "ip1"⟩ ∧
    Package.by_name exStore "A" = some ⟨1, "A", "pa"⟩ ∧
    Tag.get exStore 1 "t" = some ⟨4, 1, "t", 1, 0⟩ ∧
    Vote.get exStore 3 4 = some ⟨5, 3, 4, true⟩ ∧
    (add_vote exStore "A" "t" true "ip1"
        = (exStore, .ok (noChangeMsg "t" "A")) ∧
      (add_vote (add_vote exStore "A" "t" true "ip1").1 "A" "t" true
          "ip1").1
        = (add_vote exStore "A" "t" true "ip1").1) :=
  ⟨by decide, by decide, by decide, by decide,
   claim_C4_same_polarity_noop exStore "A" "t" "ip1" true ⟨1, "A", "pa"⟩
     ⟨3, "ip1"⟩ ⟨4, 1, "t", 1, 0⟩ ⟨5, 3, 4, true⟩ (by decide) (by decide)
     (by decide) (by decide) (by decide)⟩

/-- Claim C3: when the package or the tag cannot be resolved, `add_vote`
fails with the domain exception carrying the message
`This tag could not be found associated to this package`, and the only
permitted side effect is the get-or-create of the User, which runs first:
tags, votes and ratings are untouched. -/
theorem claim_C3_vote_not_found (s : Store) (pn tg ip : String)
    (vote : Bool)
    (hnf : Package.by_name s pn = none ∨
      ∃ p, Package.by_name s pn = some p ∧ Tag.get s p.id tg = none) :
    add_vote s pn tg vote ip
        = ((FASUser.get_or_create s ip).1,
           .error (.taggerapi tagNotFoundMsg)) ∧
      (add_vote s pn tg vote ip).1.tags = s.tags ∧
      (add_vote s pn tg vote ip).1.votes = s.votes ∧
      (add_vote s pn tg vote ip).1.ratings = s.ratings := by
  rcases hg : FASUser.get_or_create s ip with ⟨s1, u⟩
  have hpk : s1.packages = s.packages := by
    have h := get_or_create_packages s ip
    rw [hg] at h
    exact h
  have htg : s1.tags = s.tags := by
    have h := get_or_create_tags s ip
    rw [hg] at h
    exact h
  have hvt : s1.votes = s.votes := by
    have h := get_or_create_votes s ip
    rw [hg] at h
    exact h
  have hrt : s1.ratings = s.ratings := by
    have h := get_or_create_ratings s ip
    rw [hg] at h
    exact h
  have heq : add_vote s pn tg vote ip
      = (s1, .error (.taggerapi tagNotFoundMsg)) := by
    rcases hnf with hp | ⟨p, hp, ht⟩
    · refine add_vote_nopkg_eq s s1 u pn tg ip vote hg ?_
      rw [by_name_congr s s1 pn hpk]
      exact hp
    · refine add_vote_notag_eq s s1 u pn tg ip vote p hg ?_ ?_
      · rw [by_name_congr s s1 pn hpk]
        exact hp
      · rw [tag_get_congr s s1 p.id tg htg]
        exact ht
  refine ⟨?_, ?_, ?_, ?_⟩
  · rw [heq]
  · rw [heq]
    exact htg
  · rw [heq]
    exact hvt
  · rw [heq]
    exact hrt

/-- Witness for C3 at a concrete store: voting on an absent tag label. -/
theorem claim_C3_vote_not_found_witness :
    (Package.by_name exStore "A" = some ⟨1, "A", "pa"⟩ ∧
      Tag.get exStore 1 "missing" = none) ∧
    (add_vote exStore "A" "missing" true "ip1"
        = ((FASUser.get_or_create exStore "ip1").1,
           .error (.taggerapi tagNotFoundMsg)) ∧
      (add_vote exStore "A" "missing" true "ip1").1.tags = exStore.tags ∧
      (add_vote exStore "A" "missing" true "ip1").1.votes = exStore.votes ∧
      (add_vote exStore "A" "missing" true "ip1").1.ratings
        = exStore.ratings) :=
  ⟨⟨by decide, by decide⟩,
   claim_C3_vote_not_found exStore "A" "missing" "ip1" true
     (Or.inr ⟨⟨1, "A", "pa"⟩, by decide, by decide⟩)⟩

/-- Claim C6: `add_tag` on an existing package and a fresh label creates
exactly one Tag with like 1 and dislike 0 and exactly one like-polarity
Vote row by the requesting user on it, returning the confirmation
string. -/
theorem claim_C6_add_tag_fresh (s : Store) (pn tg ip : String) (p : Package)
    (hp : Package.by_name s pn = some p)
    (ht : Tag.get s p.id tg = none) :
    ∃ s1 u t v,
      FASUser.get_or_create s ip = (s1, u) ∧
      add_tag s pn tg ip =
        ({ s1 with tags := s1.tags ++ [t], votes := s1.votes ++ [v],
                   nextId := s1.nextId + 2 },
         .ok (tagAddedMsg tg pn)) ∧
      t.package_id = p.id ∧ t.label = tg ∧ t.like = 1 ∧ t.dislike = 0 ∧
      v.user_id = u.id ∧ v.tag_id = t.id ∧ v.like = true := by
  rcases hg : FASUser.get_or_create s ip with ⟨s1, u⟩
  have htg : s1.tags = s.tags := by
    have h := get_or_create_tags s ip
    rw [hg] at h
    exact h
  have ht1 : Tag.get s1 p.id tg = none := by
    rw [tag_get_congr s s1 p.id tg htg]
    exact ht
  exact ⟨s1, u, ⟨s1.nextId, p.id, tg, 1, 0⟩,
    ⟨s1.nextId + 1, u.id, s1.nextId, true⟩, rfl,
    add_tag_fresh_eq s s1 u pn tg ip p hg hp ht1,
    rfl, rfl, rfl, rfl, rfl, rfl, rfl⟩

/-- Witness for C6 at a concrete store: a fresh label on package B. -/
theorem claim_C6_add_tag_fresh_witness :
    Package.by_name exStore "B" = some ⟨2, "B", "pb"⟩ ∧
    Tag.get exStore 2 "new" = none ∧
    ∃ s1 u t v,
      FASUser.get_or_create exStore "ip1" = (s1, u) ∧
      add_tag exStore "B" "new" "ip1" =
        ({ s1 with tags := s1.tags ++ [t], votes := s1.votes ++ [v],
                   nextId := s1.nextId + 2 },
         .ok (tagAddedMsg "new" "B")) ∧
      t.package_id = 2 ∧ t.label = "new" ∧ t.like = 1 ∧ t.dislike = 0 ∧
      v.user_id = u.id ∧ v.tag_id = t.id ∧ v.like = true :=
  ⟨by decide, by decide,
   claim_C6_add_tag_fresh exStore "B" "new" "ip1" ⟨2, "B", "pb"⟩
     (by decide) (by decide)⟩

/-- Claim C2: an existing vote of the opposite polarity is flipped:
the counter matching the old polarity drops by one, the counter matching
the new polarity rises by one, the single Vote row's polarity is updated in
place (no new row), and the "changed" message is returned. -/
theorem claim_C2_flip_vote (s : Store) (pn tg ip : String) (vote : Bool)
    (p : Package) (u : FASUser) (tagobj : Tag) (voteobj : Vote)
    (hwf : s.wf)
    (hu : s.users.find? (fun x => x.ipaddress == ip) = some u)
    (hp : Package.by_name s pn = some p)
    (ht : Tag.get s p.id tg = some tagobj)
    (hv : Vote.get s u.id tagobj.id = some voteobj)
    (hne : ¬ (voteobj.like = vote)) :
    ∃ s', add_vote s pn tg vote ip = (s', .ok (voteMsg "changed" tg pn)) ∧
      Tag.get s' p.id tg = some
        (if voteobj.like then
          { tagobj with like := tagobj.like - 1,
                        dislike := tagobj.dislike + 1 }
         else
          { tagobj with dislike := tagobj.dislike - 1,
                        like := tagobj.like + 1 }) ∧
      Vote.get s' u.id tagobj.id = some { voteobj with like := vote } ∧
      s'.votes.length = s.votes.length := by
  obtain ⟨hb1, hb2, hb3, hnd4, hnd5, href6, href7⟩ := hwf
  have hg := get_or_create_of_find s ip u hu
  have heq := add_vote_flip_eq s s u pn tg ip vote p tagobj voteobj
    hg hp ht hv hne
  refine ⟨_, heq, ?_, ?_, ?_⟩
  · show (updateBy Tag.id
        (if voteobj.like then
          { tagobj with like := tagobj.like - 1,
                        dislike := tagobj.dislike + 1 }
         else
          { tagobj with dislike := tagobj.dislike - 1,
                        like := tagobj.like + 1 }) s.tags).find?
        (fun t => t.package_id == p.id && t.label == tg)
      = some (if voteobj.like then
          { tagobj with like := tagobj.like - 1,
                        dislike := tagobj.dislike + 1 }
         else
          { tagobj with dislike := tagobj.dislike - 1,
                        like := tagobj.like + 1 })
    refine find?_updateBy Tag.id _ tagobj _ s.tags ht hnd4 ?_ ?_
    · cases h : voteobj.like <;> simp [h]
    · have hf := tag_get_fields s p.id tg tagobj ht
      cases h : voteobj.like <;> simp [h, hf.1, hf.2]
  · show (updateBy Vote.id { voteobj with like := vote } s.votes).find?
        (fun v => v.user_id == u.id && v.tag_id == tagobj.id)
      = some { voteobj with like := vote }
    refine find?_updateBy Vote.id _ voteobj _ s.votes hv hnd5 rfl ?_
    have hf := vote_get_fields s u.id tagobj.id voteobj hv
    simp [hf.1, hf.2]
  · show (updateBy Vote.id { voteobj with like := vote } s.votes).length
      = s.votes.length
    exact updateBy_length Vote.id _ s.votes

/-- Witness for C2 at a concrete store: flipping a like to a dislike. -/
theorem claim_C2_flip_vote_witness :
    Store.wf exStore ∧
    exStore.users.find? (fun x => x.ipaddress == "ip1") = some ⟨3, "ip1"⟩ ∧
    Package.by_name exStore "A" = some ⟨1, "A", "pa"⟩ ∧
    Tag.get exStore 1 "t" = some ⟨4, 1, "t", 1, 0⟩ ∧
    Vote.get exStore 3 4 = some ⟨5, 3, 4, true⟩ ∧
    ∃ s', add_vote exStore "A" "t" false "ip1"
        = (s', .ok (voteMsg "changed" "t" "A")) ∧
      Tag.get s' 1 "t" = some ⟨4, 1, "t", 1 - 1, 0 + 1⟩ ∧
      Vote.get s' 3 4 = some ⟨5, 3, 4, false⟩ ∧
      s'.votes.length = exStore.votes.length :=
  ⟨by decide, by decide, by decide, by decide, by decide,
   claim_C2_flip_vote exStore "A" "t" "ip1" false ⟨1, "A", "pa"⟩ ⟨3, "ip1"⟩
     ⟨4, 1, "t", 1, 0⟩ ⟨5, 3, 4, true⟩ (by decide) (by decide) (by decide)
     (by decide) (by decide) (by decide)⟩

/-- Claim C5: on an existing tag, `add_tag` bumps `like` by exactly one and
always appends a fresh like-polarity Vote row for the requesting user with
no duplicate check, so `n` repeated calls raise `like` by `n` and leave `n`
like-vote rows for the same (user, tag) pair. -/
theorem claim_C5_add_tag_inflates (s : Store) (pn tg ip : String)
    (p : Package) (u : FASUser) (tagobj : Tag) (n : Nat)
    (hwf : s.wf)
    (hu : s.users.find? (fun x => x.ipaddress == ip) = some u)
    (hp : Package.by_name s pn = some p)
    (ht : Tag.get s p.id tg = some tagobj) :
    (∃ t1, Tag.get (add_tag s pn tg ip).1 p.id tg = some t1 ∧
        t1.like = tagobj.like + 1) ∧
    pairLikeCount (add_tag s pn tg ip).1 u.id tagobj.id
      = pairLikeCount s u.id tagobj.id + 1 ∧
    (add_tag s pn tg ip).1.votes.length = s.votes.length + 1 ∧
    ∃ tN, Tag.get (iter_add_tag pn tg ip n s) p.id tg = some tN ∧
      tN.like = tagobj.like + n ∧ tN.dislike = tagobj.dislike ∧
      pairLikeCount (iter_add_tag pn tg ip n s) u.id tagobj.id
        = pairLikeCount s u.id tagobj.id + n ∧
      (iter_add_tag pn tg ip n s).votes.length = s.votes.length + n := by
  obtain ⟨hwf', husers, hpks, htg', hcnt, hlen⟩ :=
    add_tag_existing_full_step s pn tg ip p u tagobj hwf hu hp ht
  obtain ⟨tN, k1, k2, k3, k4, k5, k6⟩ :=
    iter_add_tag_spec pn tg ip p u n s tagobj hwf hu hp ht
  exact ⟨⟨_, htg', rfl⟩, hcnt, hlen, tN, k1, k3, k4, k5, k6⟩

/-- Witness for C5: three repeated `add_tag` calls on the existing tag of
the concrete store. -/
theorem claim_C5_add_tag_inflates_witness :
    Store.wf exStore ∧
    exStore.users.find? (fun x => x.ipaddress == "ip1") = some ⟨3, "ip1"⟩ ∧
    Package.by_name exStore "A" = some ⟨1, "A", "pa"⟩ ∧
    Tag.get exStore 1 "t" = some ⟨4, 1, "t", 1, 0⟩ ∧
    ((∃ t1, Tag.get (add_tag exStore "A" "t" "ip1").1 1 "t" = some t1 ∧
        t1.like = (1 : Int) + 1) ∧
      pairLikeCount (add_tag exStore "A" "t" "ip1").1 3 4
        = pairLikeCount exStore 3 4 + 1 ∧
      (add_tag exStore "A" "t" "ip1").1.votes.length
        = exStore.votes.length + 1 ∧
      ∃ tN, Tag.get (iter_add_tag "A" "t" "ip1" 3 exStore) 1 "t"
          = some tN ∧
        tN.like = (1 : Int) + (3 : Nat) ∧ tN.dislike = (0 : Int) ∧
        pairLikeCount (iter_add_tag "A" "t" "ip1" 3 exStore) 3 4
          = pairLikeCount exStore 3 4 + 3 ∧
        (iter_add_tag "A" "t" "ip1" 3 exStore).votes.length
          = exStore.votes.length + 3) :=
  ⟨by decide, by decide, by decide, by decide,
   claim_C5_add_tag_inflates exStore "A" "t" "ip1" ⟨1, "A", "pa"⟩
     ⟨3, "ip1"⟩ ⟨4, 1, "t", 1, 0⟩ 3 (by decide) (by decide) (by decide)
     (by decide)⟩

/-- Claim C7: `statistics` returns the single-`summary` mapping of the six
numbers; on an empty package set every field is zero with no division
error, and on packages A (three tags) and B (none) it returns two
packages, one with and one without tags, an overall average of 3/2 and a
nonzero-restricted average of 3. -/
theorem claim_C7_statistics (s : Store)
    (href : ∀ t ∈ s.tags, t.package_id ∈ s.packages.map Package.id)
    (hemp : s.packages = []) :
    statistics s = ⟨⟨0, 0, 0, 0, 0, 0⟩⟩ ∧
      statistics statsStore = ⟨⟨2, 3, 1, 1, (3 : Rat) / 2, 3⟩⟩ := by
  constructor
  · have htags : s.tags = [] := by
      cases h : s.tags with
      | nil => rfl
      | cons t ts =>
          have hmem := href t (by rw [h]; exact List.mem_cons_self t ts)
          rw [hemp] at hmem
          simp at hmem
    unfold statistics Tag.count_unique_label
    rw [hemp, htags]
    rfl
  · have h : statistics statsStore
        = ⟨⟨2, 3, 1, 1, (3 : Rat) / 2, (3 : Rat) / 1⟩⟩ := rfl
    rw [h]
    simp only [Statistics.mk.injEq, Summary.mk.injEq]
    norm_num

/-- Witness for C7: the hypotheses hold of the empty store. -/
theorem claim_C7_statistics_witness :
    (∀ t ∈ emptyStore.tags,
      t.package_id ∈ emptyStore.packages.map Package.id) ∧
    emptyStore.packages = [] ∧
    (statistics emptyStore = ⟨⟨0, 0, 0, 0, 0, 0⟩⟩ ∧
      statistics statsStore = ⟨⟨2, 3, 1, 1, (3 : Rat) / 2, 3⟩⟩) :=
  ⟨by decide, by decide,
   claim_C7_statistics emptyStore (by decide) (by decide)⟩

/-- Claim C9: `add_rating` on an existing package unconditionally appends a
new Rating row for the (possibly created) user; two successive calls for
the same user and package with different values leave two independent
Rating rows. -/
theorem claim_C9_two_ratings (s : Store) (pn : String) (r1 r2 : Int)
    (ip : String) (p : Package)
    (hp : Package.by_name s pn = some p) :
    ∃ (u : FASUser) (rat1 rat2 : Rating) (s1 s2 : Store),
      add_rating s pn r1 ip = (s1, .ok (ratingAddedMsg r1 pn)) ∧
      add_rating s1 pn r2 ip = (s2, .ok (ratingAddedMsg r2 pn)) ∧
      s1.ratings = s.ratings ++ [rat1] ∧
      s2.ratings = s.ratings ++ [rat1, rat2] ∧
      rat1.user_id = u.id ∧ rat2.user_id = u.id ∧
      rat1.package_id = p.id ∧ rat2.package_id = p.id ∧
      rat1.rating = r1 ∧ rat2.rating = r2 := by
  rcases hg : FASUser.get_or_create s ip with ⟨sa, u⟩
  have hpk : sa.packages = s.packages := by
    have h := get_or_create_packages s ip
    rw [hg] at h
    exact h
  have hrt : sa.ratings = s.ratings := by
    have h := get_or_create_ratings s ip
    rw [hg] at h
    exact h
  have h1 := add_rating_ok_eq s sa u pn r1 ip p hg hp
  set s1 : Store := { sa with
    ratings := sa.ratings ++ [⟨sa.nextId, p.id, u.id, r1⟩],
    nextId := sa.nextId + 1 } with hs1
  have hg2 : FASUser.get_or_create s1 ip = (s1, u) := by
    have h := get_or_create_congr_users s s1 ip (by rw [hg, hs1])
    rw [hg] at h
    exact h
  have hp2 : Package.by_name s1 pn = some p := by
    have hpk1 : s1.packages = s.packages := by
      rw [hs1]
      exact hpk
    rw [by_name_congr s s1 pn hpk1]
    exact hp
  have h2 := add_rating_ok_eq s1 s1 u pn r2 ip p hg2 hp2
  refine ⟨u, ⟨sa.nextId, p.id, u.id, r1⟩, ⟨s1.nextId, p.id, u.id, r2⟩,
    s1, _, h1, h2, ?_, ?_, rfl, rfl, rfl, rfl, rfl, rfl⟩
  · rw [hs1]
    simp [hrt]
  · rw [hs1]
    simp [hrt]

/-- Witness for C9 at a concrete store: two ratings 5 then 2. -/
theorem claim_C9_two_ratings_witness :
    Package.by_name exStore "A" = some ⟨1, "A", "pa"⟩ ∧
    ∃ (u : FASUser) (rat1 rat2 : Rating) (s1 s2 : Store),
      add_rating exStore "A" 5 "ip1" = (s1, .ok (ratingAddedMsg 5 "A")) ∧
      add_rating s1 "A" 2 "ip1" = (s2, .ok (ratingAddedMsg 2 "A")) ∧
      s1.ratings = exStore.ratings ++ [rat1] ∧
      s2.ratings = exStore.ratings ++ [rat1, rat2] ∧
      rat1.user_id = u.id ∧ rat2.user_id = u.id ∧
      rat1.package_id = 1 ∧ rat2.package_id = 1 ∧
      rat1.rating = 5 ∧ rat2.rating = 2 :=
  ⟨by decide,
   claim_C9_two_ratings exStore "A" 5 2 "ip1" ⟨1, "A", "pa"⟩ (by decide)⟩

/-- Counterexample to claim C8 as stated: on a store without the named
package, `add_tag` fails with the raw store-level NoResultFound escaping
untranslated, not with the dedicated domain exception type. -/
theorem claim_C8_counterexample :
    (add_tag emptyStore "ghost" "t" "ip").2
        = Except.error TaggerError.noResultFound ∧
      TaggerError.noResultFound.isDomain = false :=
  ⟨rfl, rfl⟩

/-- Amended claim C8: every failure of `add_vote` is the dedicated domain
exception (`TaggerapiException`) with its human-readable message, but
`add_tag` and `add_rating` on an absent package let the raw store-level
NoResultFound escape untranslated (and `statistics` is total). -/
theorem claim_C8_amended_error_signalling (s : Store) (pn tg ip : String)
    (vote : Bool) (r : Int) :
    (∀ e, (add_vote s pn tg vote ip).2 = .error e →
      e = .taggerapi tagNotFoundMsg) ∧
    (∀ e, (add_tag s pn tg ip).2 = .error e → e = .noResultFound) ∧
    (∀ e, (add_rating s pn r ip).2 = .error e → e = .noResultFound) := by
  rcases hg : FASUser.get_or_create s ip with ⟨s1, u⟩
  refine ⟨?_, ?_, ?_⟩
  · intro e he
    cases hp : Package.by_name s1 pn with
    | none =>
        rw [add_vote_nopkg_eq s s1 u pn tg ip vote hg hp] at he
        simp at he
        exact he.symm
    | some p =>
        cases ht : Tag.get s1 p.id tg with
        | none =>
            rw [add_vote_notag_eq s s1 u pn tg ip vote p hg hp ht] at he
            simp at he
            exact he.symm
        | some tagobj =>
            cases hv : Vote.get s1 u.id tagobj.id with
            | some voteobj =>
                by_cases hsame : voteobj.like = vote
                · rw [add_vote_same_eq s s1 u pn tg ip vote p tagobj voteobj
                    hg hp ht hv hsame] at he
                  simp at he
                · rw [add_vote_flip_eq s s1 u pn tg ip vote p tagobj voteobj
                    hg hp ht hv hsame] at he
                  simp at he
            | none =>
                rw [add_vote_create_eq s s1 u pn tg ip vote p tagobj
                  hg hp ht hv] at he
                simp at he
  · intro e he
    cases hp : Package.by_name s pn with
    | none =>
        rw [add_tag_nopkg_eq s pn tg ip hp] at he
        simp at he
        exact he.symm
    | some p =>
        cases ht : Tag.get s1 p.id tg with
        | some tagobj =>
            rw [add_tag_existing_eq s s1 u pn tg ip p tagobj hg hp ht] at he
            simp at he
        | none =>
            rw [add_tag_fresh_eq s s1 u pn tg ip p hg hp ht] at he
            simp at he
  · intro e he
    cases hp : Package.by_name s pn with
    | none =>
        rw [add_rating_nopkg_eq s pn r ip hp] at he
        simp at he
        exact he.symm
    | some p =>
        rw [add_rating_ok_eq s s1 u pn r ip p hg hp] at he
        simp at he

/-- Witness for the amended C8: `add_vote` on a missing package yields the
domain exception, `add_tag` on a missing package the raw store error. -/
theorem claim_C8_amended_error_signalling_witness :
    TaggerError.taggerapi tagNotFoundMsg
        = TaggerError.taggerapi tagNotFoundMsg ∧
      TaggerError.noResultFound = TaggerError.noResultFound :=
  ⟨(claim_C8_amended_error_signalling emptyStore "g" "t" "ip" true
      5).1 (TaggerError.taggerapi tagNotFoundMsg) rfl,
   (claim_C8_amended_error_signalling emptyStore "g" "t" "ip" true
      5).2.1 TaggerError.noResultFound rfl⟩

end FedoraTagger
